import Mathlib

/-!
Verification of the diagnosis list view pipeline of the ai-cattle-diagnosis
web client (frontend/src/components/DiagnosisHistory.jsx and Dashboard.jsx).

The JavaScript source is shallowly embedded as follows.

* JS strings are Lean `String`s; a missing or `undefined` string-valued field
  is encoded as `""`, which is exactly how the source observes it (every read
  site guards with `||`, and `undefined` and `""` are both falsy).
* `a || b` on strings is `jsOr`.
* `created_at` timestamps are embedded as the integer millisecond value that
  `new Date(created_at)` yields, so `new Date(created_at || 0)` is
  `created_at.getD 0`; an absent timestamp is `none`.
* `confidence` is an exact rational; the source only ever uses it through
  `confidence || 0`, comparator subtraction, and `Math.round(c * 100)`, and an
  absent confidence is indistinguishable from `0` on every one of those paths,
  so absence is encoded as `0`.
* The diagnosis record's `_ml` bag is flattened to the two fields the
  component reads through it (`_ml?.top_processed`, `_ml?.review_status`),
  with `""` again encoding the whole optional chain coming up empty.
* `reviewed_by` may be an object or a string in the source; the component
  resolves it with `(reviewed_by && reviewed_by.username) || reviewed_by || ""`
  to a string, which is the value embedded here.
* `Array.prototype.sort` is stable (ECMA-262, ES2019) and for a consistent
  comparator `cmp` returns the unique stable reordering whose adjacent pairs
  satisfy `cmp a b ≤ 0`; it is embedded as Mathlib's stable
  `List.insertionSort` over the relation `cmp a b ≤ 0`.
-/

namespace CattleDiagnosis

/-! ### JavaScript string primitives -/

/-- JS `a || b` for strings: `""` (and `undefined`, encoded as `""`) is falsy. -/
def jsOr (a b : String) : String := if a = "" then b else a

/-- JS `String.prototype.toLowerCase` (ASCII, which covers the data involved). -/
def strLower (s : String) : String := ⟨s.data.map Char.toLower⟩

/-- Leading- and trailing-whitespace removal on the character list. -/
def trimChars (l : List Char) : List Char :=
  ((l.dropWhile Char.isWhitespace).reverse.dropWhile Char.isWhitespace).reverse

/-- JS `String.prototype.trim`. -/
def strTrim (s : String) : String := ⟨trimChars s.data⟩

/-- Check whether `q` is a prefix of `s` (character lists). -/
def startsWith : List Char → List Char → Bool
  | _, [] => true
  | [], _ :: _ => false
  | c :: cs, d :: ds => c = d && startsWith cs ds

/-- Check whether `q` occurs as a contiguous substring of `s`. -/
def includesChars (s q : List Char) : Bool :=
  startsWith s q ||
    match s with
    | [] => false
    | _ :: t => includesChars t q

/-- JS `String.prototype.includes`. -/
def strIncludes (s q : String) : Bool := includesChars s.data q.data

/-! ### Data model

`DiagnosisRecord` is the record shape `DiagnosisHistory.jsx` actually reads:
the fields below are exactly the member accesses the component performs. -/

/-- Nested cattle object (`item.cattle` when it is an object). -/
structure CattleObj where
  name : String
  tag_number : String
  id : ℕ
deriving DecidableEq

/-- The `cattle` field of a diagnosis: a nested object or a numeric id. -/
inductive CattleRef where
  | obj (c : CattleObj)
  | byId (n : ℕ)
deriving DecidableEq

/-- A diagnosis record as read by the history and dashboard components. -/
structure DiagnosisRecord where
  id : ℕ
  cattle : Option CattleRef
  cattle_name : String
  ml_top_processed : String
  top_processed : String
  top_prediction : String
  predictions : List String
  confidence : ℚ
  severity : String
  created_at : Option ℤ
  submitted_by : String
  review_status : String
  ml_review_status : String
  reviewed_by : String
  recommendation : String
deriving DecidableEq

/-- A record with every optional field absent, used for concrete instances. -/
def mkRec (n : ℕ) : DiagnosisRecord :=
  { id := n, cattle := none, cattle_name := "", ml_top_processed := "",
    top_processed := "", top_prediction := "", predictions := [],
    confidence := 0, severity := "", created_at := none, submitted_by := "",
    review_status := "", ml_review_status := "", reviewed_by := "",
    recommendation := "" }

/-! ### Display helpers (DiagnosisHistory.jsx lines 67–83) -/

/-- Source `getCattleName`: nested object's `name || tag_number || "Unknown"`;
otherwise `cattle_name` when truthy; otherwise `Cattle #<id>` for a numeric
`cattle`; otherwise `"Unknown"`. The source tests the object branch first,
then `cattle_name`, then the numeric branch, which is the match below. -/
def getCattleName (item : DiagnosisRecord) : String :=
  match item.cattle with
  | some (CattleRef.obj c) => jsOr (jsOr c.name c.tag_number) "Unknown"
  | some (CattleRef.byId n) =>
      if item.cattle_name ≠ "" then item.cattle_name
      else "Cattle #" ++ toString n
  | none =>
      if item.cattle_name ≠ "" then item.cattle_name else "Unknown"

/-- Source `getTopDisease`: `_ml?.top_processed || top_processed` first, then
`top_prediction || predictions[0]`, else `"No prediction"`. Entries are the
disease strings the source extracts (`x.disease || x`). -/
def getTopDisease (item : DiagnosisRecord) : String :=
  let topProcessed := jsOr item.ml_top_processed item.top_processed
  if topProcessed ≠ "" then topProcessed
  else
    let top := jsOr item.top_prediction (item.predictions.headD "")
    if top ≠ "" then top else "No prediction"

/-! ### Filtering (DiagnosisHistory.jsx lines 86–95) -/

/-- Body of the `list.filter` callback; `q` is the already trimmed and
lowercased query. -/
def matchesItem (q filt : String) (item : DiagnosisRecord) : Bool :=
  let cattleName := strLower (getCattleName item)
  let disease := strLower (getTopDisease item)
  let matchesSearch := q.isEmpty || strIncludes cattleName q || strIncludes disease q
  let matchesSeverity := filt == "all" || strLower item.severity == filt
  matchesSearch && matchesSeverity

/-- Source `filtered` memo: `q = (search || "").trim().toLowerCase()` and then
`list.filter(...)`. -/
def filteredList (search severityFilter : String) (l : List DiagnosisRecord) :
    List DiagnosisRecord :=
  l.filter (matchesItem (strLower (strTrim search)) severityFilter)

/-! ### Sorting (DiagnosisHistory.jsx lines 98–110) -/

/-- The four values of the `sortBy` select. -/
inductive SortKey where
  | newest
  | oldest
  | confidence_desc
  | confidence_asc
deriving DecidableEq

/-- Millisecond value of `new Date(created_at || 0)`. -/
def dateKey (r : DiagnosisRecord) : ℤ := r.created_at.getD 0

/-- Value of `confidence || 0` (absence is encoded as `0`). -/
def confKey (r : DiagnosisRecord) : ℚ := r.confidence

/-- The source comparator for each sort key, phrased as `cmp a b ≤ 0`
(`a` may stay before `b`): `newest` is `new Date(b.created_at || 0) -
new Date(a.created_at || 0) ≤ 0`, and so on, exactly as in the source. -/
def sortLe (k : SortKey) (a b : DiagnosisRecord) : Prop :=
  match k with
  | SortKey.newest => dateKey b - dateKey a ≤ 0
  | SortKey.oldest => dateKey a - dateKey b ≤ 0
  | SortKey.confidence_desc => confKey b - confKey a ≤ 0
  | SortKey.confidence_asc => confKey a - confKey b ≤ 0

instance (k : SortKey) : DecidableRel (sortLe k) := fun a b =>
  match k with
  | SortKey.newest => inferInstanceAs (Decidable (dateKey b - dateKey a ≤ 0))
  | SortKey.oldest => inferInstanceAs (Decidable (dateKey a - dateKey b ≤ 0))
  | SortKey.confidence_desc => decidable_of_iff (confKey b ≤ confKey a) sub_nonpos.symm
  | SortKey.confidence_asc => decidable_of_iff (confKey a ≤ confKey b) sub_nonpos.symm

/-- Single rational sort key: `sortLe k` is "key of `a` ≤ key of `b`". -/
def keyVal (k : SortKey) (r : DiagnosisRecord) : ℚ :=
  match k with
  | SortKey.newest => -(dateKey r : ℚ)
  | SortKey.oldest => (dateKey r : ℚ)
  | SortKey.confidence_desc => -(confKey r)
  | SortKey.confidence_asc => confKey r

theorem sortLe_iff (k : SortKey) (a b : DiagnosisRecord) :
    sortLe k a b ↔ keyVal k a ≤ keyVal k b := by
  cases k <;>
    simp [sortLe, keyVal, sub_nonpos, neg_le_neg_iff, Int.cast_le]

instance (k : SortKey) : IsTotal DiagnosisRecord (sortLe k) :=
  ⟨fun a b => by
    rw [sortLe_iff, sortLe_iff]
    exact le_total _ _⟩

instance (k : SortKey) : IsTrans DiagnosisRecord (sortLe k) :=
  ⟨fun a b c h₁ h₂ => by
    rw [sortLe_iff] at h₁ h₂ ⊢
    exact le_trans h₁ h₂⟩

/-- Source `sorted` memo: `[...filtered].sort(cmp)` for the chosen key. The
stable JS sort is embedded as the stable `List.insertionSort`. -/
def sortedList (k : SortKey) (l : List DiagnosisRecord) : List DiagnosisRecord :=
  List.insertionSort (sortLe k) l

/-- Records of `l` whose sort key equals `v`, in list order. -/
def keyFilter (k : SortKey) (v : ℚ) (l : List DiagnosisRecord) :
    List DiagnosisRecord :=
  l.filter fun r => decide (keyVal k r = v)

theorem keyFilter_orderedInsert (k : SortKey) (v : ℚ) (a : DiagnosisRecord)
    (l : List DiagnosisRecord) :
    keyFilter k v (List.orderedInsert (sortLe k) a l) =
      if keyVal k a = v then a :: keyFilter k v l else keyFilter k v l := by
  induction l with
  | nil =>
      simp only [List.orderedInsert, keyFilter, List.filter]
      split <;> simp_all
  | cons b t ih =>
      by_cases hab : sortLe k a b
      · simp only [List.orderedInsert, if_pos hab, keyFilter, List.filter_cons]
        split <;> simp_all
      · have hba : keyVal k b < keyVal k a := by
          have := (sortLe_iff k a b).not.mp hab
          exact lt_of_not_le this
        simp only [List.orderedInsert, if_neg hab, keyFilter,
          List.filter_cons] at *
        by_cases hav : keyVal k a = v
        · have hbv : ¬ (keyVal k b = v) := by
            intro h
            rw [hav, ← h] at hba
            exact lt_irrefl _ hba
          simp [hav, hbv] at *
          exact ih
        · simp [hav] at *
          split <;> simp [ih]

theorem keyFilter_sortedList (k : SortKey) (v : ℚ) (l : List DiagnosisRecord) :
    keyFilter k v (sortedList k l) = keyFilter k v l := by
  induction l with
  | nil => rfl
  | cons a t ih =>
      simp only [sortedList, List.insertionSort] at *
      rw [keyFilter_orderedInsert]
      by_cases hav : keyVal k a = v
      · simp [keyFilter, hav, List.filter_cons] at *
        exact ih
      · simp [keyFilter, hav, List.filter_cons] at *
        exact ih

/-- C1 (amended): for every collection and every sort key, the derived sorted
set is a permutation of the input of equal length, no adjacent pair is out of
order under the key's source comparator (timestamp descending/ascending with a
missing timestamp treated as the Unix epoch `0`, confidence
descending/ascending with a missing confidence treated as `0`), and records
with equal keys keep their original relative order. -/
theorem C1_sort_correct (k : SortKey) (l : List DiagnosisRecord) :
    (sortedList k l).Perm l ∧
    (sortedList k l).length = l.length ∧
    List.Chain' (sortLe k) (sortedList k l) ∧
    ∀ v : ℚ, keyFilter k v (sortedList k l) = keyFilter k v l := by
  refine ⟨List.perm_insertionSort _ l, (List.perm_insertionSort _ l).length_eq,
    ?_, fun v => keyFilter_sortedList k v l⟩
  exact (List.sorted_insertionSort _ l).chain'

/-- A record whose timestamp predates the Unix epoch. -/
def recPre1970 : DiagnosisRecord := { mkRec 1 with created_at := some (-1) }

/-- A record with no timestamp at all. -/
def recNoDate : DiagnosisRecord := mkRec 2

/-- Adjacent-pair order required by the claim's wording for the `oldest` key:
ascending timestamps with a missing timestamp treated as the earliest time. -/
def claimOldestInOrder (a b : DiagnosisRecord) : Bool :=
  match a.created_at, b.created_at with
  | none, _ => true
  | some _, none => false
  | some x, some y => x ≤ y

/-- C1 counterexample: the code treats a missing timestamp as the epoch `0`,
not as the earliest time. Sorting `oldest` a record timestamped `-1` (before
the epoch) together with a record with no timestamp puts the timestamped one
first, so the output has an adjacent pair that is out of order under the
claim's missing-is-earliest comparator. -/
theorem C1_counterexample :
    sortedList SortKey.oldest [recPre1970, recNoDate] = [recPre1970, recNoDate] ∧
    ¬ List.Chain' (fun a b => claimOldestInOrder a b = true)
      (sortedList SortKey.oldest [recPre1970, recNoDate]) := by
  have h : sortedList SortKey.oldest [recPre1970, recNoDate] =
      [recPre1970, recNoDate] := by decide
  refine ⟨h, ?_⟩
  rw [h]
  simp only [List.chain'_cons, List.chain'_singleton, and_true]
  decide

/-! ### C2: filter characterization -/

/-- Display name exactly as the claim words it: nested object's name, then its
tag number, then a synthesized `Cattle #id`, else `Unknown` — with no
`cattle_name` fallback. -/
def claimDisplayName (r : DiagnosisRecord) : String :=
  match r.cattle with
  | some (CattleRef.obj c) =>
      if c.name ≠ "" then c.name
      else if c.tag_number ≠ "" then c.tag_number
      else "Unknown"
  | some (CattleRef.byId n) => "Cattle #" ++ toString n
  | none => "Unknown"

/-- Display disease as the claim words it: processed override, then
`top_prediction.disease`, then the first element of the predictions list,
else `No prediction`. -/
def claimDisplayDisease (r : DiagnosisRecord) : String :=
  if r.ml_top_processed ≠ "" then r.ml_top_processed
  else if r.top_processed ≠ "" then r.top_processed
  else if r.top_prediction ≠ "" then r.top_prediction
  else
    match r.predictions with
    | [] => "No prediction"
    | d :: _ => if d ≠ "" then d else "No prediction"

/-- The claim's membership predicate, exactly as stated (display name without
the `cattle_name` fallback). -/
def claimMatch (search severityFilter : String) (r : DiagnosisRecord) : Bool :=
  let q := strLower (strTrim search)
  (q.isEmpty || strIncludes (strLower (claimDisplayName r)) q
      || strIncludes (strLower (claimDisplayDisease r)) q)
    && (severityFilter == "all" || strLower r.severity == severityFilter)

/-- Display name as the amended claim words it: the code additionally prefers
a flat `cattle_name` field before the synthesized `Cattle #id` and before the
final `Unknown` whenever `cattle` is not a nested object. -/
def amendedDisplayName (r : DiagnosisRecord) : String :=
  match r.cattle with
  | some (CattleRef.obj c) =>
      if c.name ≠ "" then c.name
      else if c.tag_number ≠ "" then c.tag_number
      else "Unknown"
  | some (CattleRef.byId n) =>
      if r.cattle_name ≠ "" then r.cattle_name else "Cattle #" ++ toString n
  | none => if r.cattle_name ≠ "" then r.cattle_name else "Unknown"

/-- The amended claim's membership predicate. -/
def amendedMatch (search severityFilter : String) (r : DiagnosisRecord) : Bool :=
  let q := strLower (strTrim search)
  (q.isEmpty || strIncludes (strLower (amendedDisplayName r)) q
      || strIncludes (strLower (claimDisplayDisease r)) q)
    && (severityFilter == "all" || strLower r.severity == severityFilter)

theorem getCattleName_eq_amended (r : DiagnosisRecord) :
    getCattleName r = amendedDisplayName r := by
  unfold getCattleName amendedDisplayName jsOr
  rcases r.cattle with _ | ref
  · rfl
  · rcases ref with c | n
    · by_cases h₁ : c.name = "" <;> by_cases h₂ : c.tag_number = "" <;>
        simp [h₁, h₂]
    · rfl

theorem getTopDisease_eq_claim (r : DiagnosisRecord) :
    getTopDisease r = claimDisplayDisease r := by
  unfold getTopDisease claimDisplayDisease jsOr
  by_cases h₁ : r.ml_top_processed = "" <;>
    by_cases h₂ : r.top_processed = "" <;>
    by_cases h₃ : r.top_prediction = "" <;>
    rcases hp : r.predictions with _ | ⟨d, t⟩ <;>
    simp [h₁, h₂, h₃]

theorem matchesItem_eq_amended (search severityFilter : String)
    (r : DiagnosisRecord) :
    matchesItem (strLower (strTrim search)) severityFilter r =
      amendedMatch search severityFilter r := by
  unfold matchesItem amendedMatch
  rw [getCattleName_eq_amended, getTopDisease_eq_claim]

/-- A record whose nested cattle object is named `Bossy`. -/
def recBossyObj : DiagnosisRecord :=
  { mkRec 3 with cattle := some (CattleRef.obj ⟨"Bossy", "", 3⟩) }

/-- C2 (amended): a record is in the derived filtered set iff it is in the
collection and (the trimmed query is empty, or its display name or display
disease case-insensitively contains the trimmed query) and (the filter is
`all` or equals its severity case-insensitively), where the display name
prefers the nested cattle object's name, then its tag number, then a flat
`cattle_name` field, then a synthesized `Cattle #id`, else `Unknown`, and the
display disease prefers the processed override, then `top_prediction`, then
the first prediction, else `No prediction`. In particular query `bossy`
matches a record whose cattle name is `Bossy`. -/
theorem C2_filter_correct :
    (∀ (search severityFilter : String) (l : List DiagnosisRecord)
        (r : DiagnosisRecord),
        r ∈ filteredList search severityFilter l ↔
          r ∈ l ∧ amendedMatch search severityFilter r = true) ∧
    recBossyObj ∈ filteredList "bossy" "all" [recBossyObj] := by
  constructor
  · intro search severityFilter l r
    unfold filteredList
    rw [List.mem_filter, matchesItem_eq_amended]
  · decide

/-- A record carrying only a flat `cattle_name` field. -/
def recFlatName : DiagnosisRecord := { mkRec 4 with cattle_name := "Bossy" }

/-- C2 counterexample: the claim's display-name derivation has no
`cattle_name` fallback, so for a record whose only name information is a flat
`cattle_name = "Bossy"` the claim says the display name is `Unknown` and the
record does not match query `bossy`; the code does include it in the filtered
set. -/
theorem C2_counterexample :
    recFlatName ∈ filteredList "bossy" "all" [recFlatName] ∧
    claimMatch "bossy" "all" recFlatName = false := by decide

/-! ### C3: pagination (DiagnosisHistory.jsx lines 113–120) -/

/-- Source `pageCount = Math.max(1, Math.ceil(sorted.length / itemsPerPage))`;
for a positive page size the ceiling is `(len + per - 1) / per` in ℕ. -/
def pageCount (len per : ℕ) : ℕ := max 1 ((len + per - 1) / per)

/-- Source `visible = sorted.slice(start, start + itemsPerPage)` with
`start = page * itemsPerPage`. -/
def visibleSlice (sorted : List DiagnosisRecord) (page per : ℕ) :
    List DiagnosisRecord :=
  (sorted.drop (page * per)).take per

theorem join_slices {α : Type} (per : ℕ) :
    ∀ (c : ℕ) (l : List α), l.length ≤ c * per →
      ((List.range c).map fun i => (l.drop (i * per)).take per).flatten = l := by
  intro c
  induction c with
  | zero =>
      intro l h
      simp only [Nat.zero_mul, Nat.le_zero] at h
      rcases l with _ | ⟨a, t⟩
      · rfl
      · simp at h
  | succ n ih =>
      intro l h
      rw [List.range_succ_eq_map]
      simp only [List.map_cons, List.map_map, List.flatten_cons, Nat.zero_mul,
        List.drop_zero]
      have hmap : List.map
          ((fun i => (l.drop (i * per)).take per) ∘ Nat.succ) (List.range n) =
          List.map (fun i => ((l.drop per).drop (i * per)).take per)
            (List.range n) := by
        refine List.map_congr_left fun i _ => ?_
        show ((l.drop (Nat.succ i * per)).take per) =
          (((l.drop per).drop (i * per)).take per)
        have harg : Nat.succ i * per = per + i * per := by
          rw [Nat.succ_eq_add_one]
          ring
        rw [List.drop_drop, harg]
      rw [hmap]
      have hmul : (n + 1) * per = n * per + per := by ring
      have hlen : (l.drop per).length ≤ n * per := by
        rw [List.length_drop]
        omega
      rw [ih (l.drop per) hlen]
      exact List.take_append_drop per l

theorem length_le_pageCount_mul (n per : ℕ) (hper : 1 ≤ per) :
    n ≤ pageCount n per * per := by
  unfold pageCount
  have hd := Nat.div_add_mod (n + per - 1) per
  have hm : (n + per - 1) % per < per := Nat.mod_lt _ (by omega)
  have hcomm : ((n + per - 1) / per) * per = per * ((n + per - 1) / per) :=
    Nat.mul_comm _ _
  have h1 : n ≤ ((n + per - 1) / per) * per := by omega
  calc n ≤ ((n + per - 1) / per) * per := h1
    _ ≤ max 1 ((n + per - 1) / per) * per :=
        Nat.mul_le_mul_right per (le_max_right 1 _)

theorem pageCount_minimal (n per : ℕ) (hper : 1 ≤ per) (hn : 0 < n) :
    (pageCount n per - 1) * per < n := by
  unfold pageCount
  have hk : (n + per - 1) / per = (n - 1) / per + 1 := by
    have h : n + per - 1 = (n - 1) + per := by omega
    rw [h, Nat.add_div_right _ (by omega)]
  rw [hk, Nat.max_eq_right (Nat.le_add_left 1 _)]
  have hle : (n - 1) / per * per ≤ n - 1 := Nat.div_mul_le_self _ _
  calc ((n - 1) / per + 1 - 1) * per = (n - 1) / per * per := by simp
    _ ≤ n - 1 := hle
    _ < n := by omega

/-- C3: for every collection and page size `p ≥ 1`, the page count is
`ceil(n/p)` with minimum 1 (stated by the formula together with the two
semantic ceiling bounds), the visible slice at page `i` is
`sorted[i*p : i*p+p]`, and concatenating the slices of pages
`0 .. pageCount-1` reconstructs the collection, each element exactly once. -/
theorem C3_pagination (l : List DiagnosisRecord) (per i : ℕ) (hper : 1 ≤ per) :
    pageCount l.length per = max 1 ((l.length + per - 1) / per) ∧
    1 ≤ pageCount l.length per ∧
    l.length ≤ pageCount l.length per * per ∧
    (0 < l.length → (pageCount l.length per - 1) * per < l.length) ∧
    visibleSlice l i per = (l.drop (i * per)).take per ∧
    ((List.range (pageCount l.length per)).map fun j =>
        visibleSlice l j per).flatten = l := by
  refine ⟨rfl, le_max_left 1 _, length_le_pageCount_mul l.length per hper,
    fun hn => pageCount_minimal l.length per hper hn, rfl, ?_⟩
  exact join_slices per (pageCount l.length per) l
    (length_le_pageCount_mul l.length per hper)

/-- Concrete collection for the C3 witness. -/
def listThree : List DiagnosisRecord := [mkRec 1, mkRec 2, mkRec 3]

/-- Witness for C3 at a three-element collection with page size 2. -/
theorem C3_pagination_witness :
    (1 ≤ 2) ∧
    (pageCount listThree.length 2 = max 1 ((listThree.length + 2 - 1) / 2) ∧
      1 ≤ pageCount listThree.length 2 ∧
      listThree.length ≤ pageCount listThree.length 2 * 2 ∧
      (0 < listThree.length →
        (pageCount listThree.length 2 - 1) * 2 < listThree.length) ∧
      visibleSlice listThree 1 2 = (listThree.drop (1 * 2)).take 2 ∧
      ((List.range (pageCount listThree.length 2)).map fun j =>
          visibleSlice listThree j 2).flatten = listThree) :=
  ⟨by decide, C3_pagination listThree 2 1 (by decide)⟩

/-! ### Load results (DiagnosisHistory.jsx lines 47–64, Dashboard.jsx 59–78) -/

/-- Payload of a resolved HTTP response: `res.data` is an array or it is not
(every non-array value is handled identically by the `Array.isArray` guard). -/
inductive RespVal (α : Type) where
  | arr (l : List α)
  | nonArray
deriving DecidableEq

/-- The guard `Array.isArray(res.data)`. -/
def RespVal.isArr {α : Type} : RespVal α → Bool
  | RespVal.arr _ => true
  | RespVal.nonArray => false

/-- The ternary `Array.isArray(res.data) ? res.data : []`. -/
def arrOrEmpty {α : Type} : RespVal α → List α
  | RespVal.arr l => l
  | RespVal.nonArray => []

/-- The list committed by the history load effect: the array payload on
success (empty for a non-array payload), empty on a rejected request. -/
def historyLoadResult (r : Except Unit (RespVal DiagnosisRecord)) :
    List DiagnosisRecord :=
  match r with
  | Except.ok v => arrOrEmpty v
  | Except.error _ => []

/-! ### View state machine (DiagnosisHistory.jsx state and handlers) -/

/-- The component state of `DiagnosisHistory` that the pipeline reads. -/
structure ViewState where
  list : List DiagnosisRecord
  search : String
  severityFilter : String
  sortBy : SortKey
  page : ℤ
  itemsPerPage : ℕ
  loading : Bool
deriving DecidableEq

/-- Derived `sorted` memo of a state. -/
def stateSorted (s : ViewState) : List DiagnosisRecord :=
  sortedList s.sortBy (filteredList s.search s.severityFilter s.list)

/-- Derived `pageCount` of a state. -/
def statePageCount (s : ViewState) : ℕ :=
  pageCount (stateSorted s).length s.itemsPerPage

theorem statePageCount_pos (s : ViewState) : 1 ≤ statePageCount s := by
  unfold statePageCount pageCount
  exact le_max_left 1 _

/-- The numeric page buttons actually rendered:
`range(pageCount).slice(max(0, page-3), min(pageCount, page+4))`. -/
def renderedPages (s : ViewState) : List ℕ :=
  ((List.range (statePageCount s)).drop (max 0 (s.page - 3)).toNat).take
    ((min (statePageCount s : ℤ) (s.page + 4) - max 0 (s.page - 3)).toNat)

/-- The user-visible transitions of the diagnosis list view. -/
inductive Transition where
  | load (r : Except Unit (RespVal DiagnosisRecord))
  | searchChange (q : String)
  | severityChange (f : String)
  | sortChange (k : SortKey)
  | pageSizeChange (n : ℕ)
  | prevPage
  | nextPage
  | gotoPage (i : ℕ)

/-- State update performed by each handler, before the clamp effect runs:
search/severity/sort/page-size changes also `setPage(0)`; Prev is
`max(0, p-1)`; Next is `min(pageCount-1, p+1)`; a numeric button sets its own
page index and only exists for the rendered indices. -/
def rawStep (t : Transition) (s : ViewState) : ViewState :=
  match t with
  | Transition.load r => { s with list := historyLoadResult r, loading := false }
  | Transition.searchChange q => { s with search := q, page := 0 }
  | Transition.severityChange f => { s with severityFilter := f, page := 0 }
  | Transition.sortChange k => { s with sortBy := k, page := 0 }
  | Transition.pageSizeChange n => { s with itemsPerPage := n, page := 0 }
  | Transition.prevPage => { s with page := max 0 (s.page - 1) }
  | Transition.nextPage =>
      { s with page := min ((statePageCount s : ℤ) - 1) (s.page + 1) }
  | Transition.gotoPage i =>
      if i ∈ renderedPages s then { s with page := (i : ℤ) } else s

/-- The clamp effect (lines 114–117):
`if (page >= pageCount) setPage(Math.max(0, pageCount - 1))`. -/
def clampPage (s : ViewState) : ViewState :=
  if (statePageCount s : ℤ) ≤ s.page then
    { s with page := max 0 ((statePageCount s : ℤ) - 1) }
  else s

/-- A transition followed by the clamp effect, which React re-runs on every
dependency change. -/
def step (t : Transition) (s : ViewState) : ViewState := clampPage (rawStep t s)

theorem statePageCount_clampPage (s : ViewState) :
    statePageCount (clampPage s) = statePageCount s := by
  unfold clampPage
  split <;> rfl

theorem clampPage_bounds (s : ViewState) (h : 0 ≤ s.page) :
    0 ≤ (clampPage s).page ∧ (clampPage s).page < (statePageCount s : ℤ) := by
  have h1 : 1 ≤ statePageCount s := statePageCount_pos s
  have h1' : (1 : ℤ) ≤ (statePageCount s : ℤ) := by exact_mod_cast h1
  unfold clampPage
  split
  case isTrue hge =>
    refine ⟨le_max_left 0 _, ?_⟩
    show max 0 ((statePageCount s : ℤ) - 1) < (statePageCount s : ℤ)
    rw [max_lt_iff]
    omega
  case isFalse hlt =>
    exact ⟨h, not_le.mp hlt⟩

/-- C4: after every view transition (load, search change, severity change,
sort change, page-size change, page navigation) followed by the
recompute-and-clamp effect, the pagination state satisfies
`0 ≤ page < pageCount`. -/
theorem C4_page_invariant (s : ViewState) (t : Transition) (h : 0 ≤ s.page) :
    0 ≤ (step t s).page ∧
      (step t s).page < (statePageCount (step t s) : ℤ) := by
  have hraw : 0 ≤ (rawStep t s).page := by
    cases t with
    | load r => exact h
    | searchChange q => exact le_refl 0
    | severityChange f => exact le_refl 0
    | sortChange k => exact le_refl 0
    | pageSizeChange n => exact le_refl 0
    | prevPage => exact le_max_left 0 _
    | nextPage =>
        have h1' : (1 : ℤ) ≤ (statePageCount s : ℤ) := by
          exact_mod_cast statePageCount_pos s
        show 0 ≤ min ((statePageCount s : ℤ) - 1) (s.page + 1)
        rw [le_min_iff]
        omega
    | gotoPage i =>
        show 0 ≤ (if i ∈ renderedPages s then { s with page := (i : ℤ) } else s).page
        split
        · exact Int.ofNat_nonneg i
        · exact h
  have hb := clampPage_bounds (rawStep t s) hraw
  refine ⟨hb.1, ?_⟩
  show (clampPage (rawStep t s)).page <
    (statePageCount (clampPage (rawStep t s)) : ℤ)
  rw [statePageCount_clampPage]
  exact hb.2

/-- Initial state of the view on mount. -/
def viewState0 : ViewState :=
  { list := [], search := "", severityFilter := "all", sortBy := SortKey.newest,
    page := 0, itemsPerPage := 8, loading := true }

/-- Witness for C4 at the initial state and a Next-page click. -/
theorem C4_page_invariant_witness :
    (0 ≤ viewState0.page) ∧
      (0 ≤ (step Transition.nextPage viewState0).page ∧
        (step Transition.nextPage viewState0).page <
          (statePageCount (step Transition.nextPage viewState0) : ℤ)) :=
  ⟨by decide, C4_page_invariant viewState0 Transition.nextPage (by decide)⟩

/-! ### C5: page-size change -/

/-- Four records that survive the empty filter. -/
def listFour : List DiagnosisRecord := [mkRec 1, mkRec 2, mkRec 3, mkRec 4]

/-- A state on the last of four one-record pages. -/
def stateC5 : ViewState :=
  { list := listFour, search := "", severityFilter := "all",
    sortBy := SortKey.newest, page := 3, itemsPerPage := 1, loading := false }

/-- The same state with the larger page size, for the clamp-side facts. -/
def stateC5b : ViewState := { stateC5 with itemsPerPage := 2 }

/-- C5 counterexample: growing the page size from 1 to 4 records per page
with the current page index 3 at or beyond the new page count 2 leaves the
view on page 0 — the handler resets to the first page, not to the last valid
page `pageCount - 1 = 1` that the claim requires. -/
theorem C5_counterexample :
    statePageCount stateC5b = 2 ∧
    (2 : ℤ) ≤ stateC5.page ∧
    (step (Transition.pageSizeChange 2) stateC5).page = 0 ∧
    (step (Transition.pageSizeChange 2) stateC5).page ≠
      (statePageCount (step (Transition.pageSizeChange 2) stateC5) : ℤ) - 1 := by
  decide

/-- C5 (amended): a page-size change always resets the page index to 0 (the
first page); independently, whenever the current page index is at or beyond
the page count (as after the list shrinks), the clamp effect resets the page
index to the last valid page `pageCount - 1`, which is never negative. -/
theorem C5_amended (s s' : ViewState) (n : ℕ)
    (h : (statePageCount s' : ℤ) ≤ s'.page) :
    (step (Transition.pageSizeChange n) s).page = 0 ∧
    (clampPage s').page = (statePageCount s' : ℤ) - 1 ∧
    0 ≤ (clampPage s').page := by
  refine ⟨?_, ?_, ?_⟩
  · show (clampPage (rawStep (Transition.pageSizeChange n) s)).page = 0
    have hp : (rawStep (Transition.pageSizeChange n) s).page = 0 := rfl
    unfold clampPage
    split
    case isTrue hge =>
      exfalso
      rw [hp] at hge
      have h1' : (1 : ℤ) ≤
          (statePageCount (rawStep (Transition.pageSizeChange n) s) : ℤ) := by
        exact_mod_cast statePageCount_pos _
      omega
    case isFalse _ => exact hp
  · have h1' : (1 : ℤ) ≤ (statePageCount s' : ℤ) := by
      exact_mod_cast statePageCount_pos s'
    unfold clampPage
    rw [if_pos h]
    show max 0 ((statePageCount s' : ℤ) - 1) = (statePageCount s' : ℤ) - 1
    rw [max_eq_right]
    omega
  · unfold clampPage
    rw [if_pos h]
    exact le_max_left 0 _

/-- Witness for C5 (amended) at the concrete shrinking state. -/
theorem C5_amended_witness :
    ((statePageCount stateC5b : ℤ) ≤ stateC5b.page) ∧
    ((step (Transition.pageSizeChange 2) stateC5).page = 0 ∧
      (clampPage stateC5b).page = (statePageCount stateC5b : ℤ) - 1 ∧
      0 ≤ (clampPage stateC5b).page) :=
  ⟨by decide, C5_amended stateC5 stateC5b 2 (by decide)⟩

/-! ### CSV export (DiagnosisHistory.jsx lines 123–155) -/

/-- Replacement of every `"` by `""` on the character list — the effect of
the single-character global regex in `.replace(/"/g, '""')`. -/
def escQuoteChars : List Char → List Char
  | [] => []
  | c :: cs =>
      if c = '"' then '"' :: '"' :: escQuoteChars cs else c :: escQuoteChars cs

/-- Source field serialization: wrap in double quotes with internal
double quotes doubled. -/
def quoteField (v : String) : String :=
  "\"" ++ (⟨escQuoteChars v.data⟩ : String) ++ "\""

/-- Source `id` row value: `String(r.id || "")` — a numeric id of `0` is
falsy, so it serializes to the empty string. -/
def idField (d : DiagnosisRecord) : String :=
  if d.id = 0 then "" else toString d.id

/-- Source confidence row value:
`d.confidence ? Math.round(d.confidence * 100) + "%" : ""`. `Math.round`
rounds half toward positive infinity, which is Mathlib's `round`. -/
def confidenceField (d : DiagnosisRecord) : String :=
  if d.confidence ≠ 0 then toString (round (d.confidence * 100)) ++ "%" else ""

/-- Source `created_at` row value (`d.created_at || ""`); the timestamp is
embedded by its decimal rendering. -/
def createdAtField (d : DiagnosisRecord) : String :=
  match d.created_at with
  | some t => toString t
  | none => ""

/-- Source review-status row value:
`d.review_status || d._ml?.review_status || ""`. -/
def reviewStatusField (d : DiagnosisRecord) : String :=
  jsOr d.review_status d.ml_review_status

/-- The row object the source builds per record, as an ordered key-value
list (JS object literals preserve insertion order for `Object.keys`). -/
def rowOf (d : DiagnosisRecord) : List (String × String) :=
  [("id", idField d),
   ("cattle", getCattleName d),
   ("disease", getTopDisease d),
   ("confidence", confidenceField d),
   ("severity", d.severity),
   ("submitted_by", d.submitted_by),
   ("created_at", createdAtField d),
   ("review_status", reviewStatusField d),
   ("reviewed_by", d.reviewed_by)]

/-- Outcome of `exportCsv`: either the `No rows to export` alert or a
downloadable file (name, content). -/
inductive ExportResult where
  | noRows (msg : String)
  | file (name content : String)
deriving DecidableEq

/-- Source `exportCsv`, applied to the full sorted/filtered set and the
current ISO date: build rows, bail out with an alert when there are none,
else join the `Object.keys(rows[0])` header and the quoted rows. -/
def exportCsv (sorted : List DiagnosisRecord) (today : String) : ExportResult :=
  let rows := sorted.map rowOf
  match rows with
  | [] => ExportResult.noRows "No rows to export"
  | r0 :: _ =>
      let keys := r0.map Prod.fst
      let csv := String.intercalate "\n"
        (String.intercalate "," keys ::
          rows.map fun r =>
            String.intercalate ","
              (keys.map fun k => quoteField (jsOr ((r.lookup k).getD "") "")))
      ExportResult.file ("diagnosis_history_" ++ today ++ ".csv") csv

/-- The fixed field order required by the spec. -/
def specFieldNames : List String :=
  ["id", "cattle", "disease", "confidence", "severity", "submitted_by",
   "created_at", "review_status", "reviewed_by"]

/-- A record's CSV line as the spec words it: the nine fields in the fixed
order, each wrapped in double quotes with internal quotes doubled, joined by
commas. -/
def specRow (d : DiagnosisRecord) : String :=
  String.intercalate ","
    ([idField d, getCattleName d, getTopDisease d, confidenceField d,
      d.severity, d.submitted_by, createdAtField d, reviewStatusField d,
      d.reviewed_by].map quoteField)

/-- CSV content as the spec words it: a header row of the field names
followed by one quoted-field row per record, joined by newlines. -/
def csvSpec (l : List DiagnosisRecord) : String :=
  String.intercalate "\n"
    (String.intercalate "," specFieldNames :: l.map specRow)

theorem jsOr_empty_right (v : String) : jsOr v "" = v := by
  unfold jsOr
  split
  case isTrue h => exact h.symm
  case isFalse _ => rfl

theorem serialize_rowOf (keys : List String) (hkeys : keys = specFieldNames)
    (d : DiagnosisRecord) :
    String.intercalate ","
        (keys.map fun k => quoteField (jsOr (((rowOf d).lookup k).getD "") "")) =
      specRow d := by
  subst hkeys
  have h₁ : (rowOf d).lookup "id" = some (idField d) := rfl
  have h₂ : (rowOf d).lookup "cattle" = some (getCattleName d) := rfl
  have h₃ : (rowOf d).lookup "disease" = some (getTopDisease d) := rfl
  have h₄ : (rowOf d).lookup "confidence" = some (confidenceField d) := rfl
  have h₅ : (rowOf d).lookup "severity" = some d.severity := rfl
  have h₆ : (rowOf d).lookup "submitted_by" = some d.submitted_by := rfl
  have h₇ : (rowOf d).lookup "created_at" = some (createdAtField d) := rfl
  have h₈ : (rowOf d).lookup "review_status" = some (reviewStatusField d) := rfl
  have h₉ : (rowOf d).lookup "reviewed_by" = some d.reviewed_by := rfl
  simp only [specFieldNames, specRow, List.map_cons, List.map_nil,
    h₁, h₂, h₃, h₄, h₅, h₆, h₇, h₈, h₉, Option.getD_some, jsOr_empty_right]

theorem exportCsv_cons (d : DiagnosisRecord) (ds : List DiagnosisRecord)
    (today : String) :
    exportCsv (d :: ds) today =
      ExportResult.file ("diagnosis_history_" ++ today ++ ".csv")
        (String.intercalate "\n"
          (String.intercalate "," ((rowOf d).map Prod.fst) ::
            ((d :: ds).map rowOf).map fun r =>
              String.intercalate ","
                (((rowOf d).map Prod.fst).map fun k =>
                  quoteField (jsOr ((r.lookup k).getD "") "")))) := rfl

theorem exportCsv_eq_spec (l : List DiagnosisRecord) (today : String)
    (h : l ≠ []) :
    exportCsv l today =
      ExportResult.file ("diagnosis_history_" ++ today ++ ".csv")
        (csvSpec l) := by
  rcases l with _ | ⟨d, ds⟩
  · exact absurd rfl h
  · rw [exportCsv_cons]
    unfold csvSpec
    have hhdr : ((rowOf d).map Prod.fst) = specFieldNames := rfl
    rw [hhdr]
    refine congrArg (fun t => ExportResult.file
      ("diagnosis_history_" ++ today ++ ".csv")
      (String.intercalate "\n"
        (String.intercalate "," specFieldNames :: t))) ?_
    rw [List.map_map]
    refine List.map_congr_left fun x _ => ?_
    exact serialize_rowOf _ rfl x

/-- C6: for every non-empty filtered/sorted set, export produces a file
named `diagnosis_history_<ISO-date>.csv` for the current date whose content
is a comma-separated header row of the field names followed by one row per
record of the full set (not just the visible page) with the nine fields
{id, cattle name, disease, confidence percentage, severity, submitter,
timestamp, review status, reviewer} in that fixed order, every field wrapped
in double quotes with internal double quotes doubled. -/
theorem C6_export_csv (searchQ filt : String) (k : SortKey)
    (list : List DiagnosisRecord) (today : String)
    (h : sortedList k (filteredList searchQ filt list) ≠ []) :
    exportCsv (sortedList k (filteredList searchQ filt list)) today =
      ExportResult.file ("diagnosis_history_" ++ today ++ ".csv")
        (csvSpec (sortedList k (filteredList searchQ filt list))) :=
  exportCsv_eq_spec _ today h

/-- A record with a severity and submitter, for the export witness. -/
def recExport : DiagnosisRecord :=
  { mkRec 7 with severity := "high", submitted_by := "vet1" }

/-- Witness for C6 on a one-record collection. -/
theorem C6_export_csv_witness :
    (sortedList SortKey.newest (filteredList "" "all" [recExport]) ≠ []) ∧
    exportCsv (sortedList SortKey.newest (filteredList "" "all" [recExport]))
        "2026-10-11" =
      ExportResult.file ("diagnosis_history_" ++ "2026-10-11" ++ ".csv")
        (csvSpec (sortedList SortKey.newest (filteredList "" "all" [recExport]))) :=
  ⟨by decide, C6_export_csv "" "all" SortKey.newest [recExport] "2026-10-11"
    (by decide)⟩

/-- C7: exporting an empty filtered/sorted set produces no downloadable
artifact — the result is the `No rows to export` report, not a file — and
the view state is untouched (`exportCsv` reads the set and nothing else). -/
theorem C7_export_empty (searchQ filt : String) (k : SortKey)
    (list : List DiagnosisRecord) (today : String)
    (h : sortedList k (filteredList searchQ filt list) = []) :
    exportCsv (sortedList k (filteredList searchQ filt list)) today =
      ExportResult.noRows "No rows to export" := by
  rw [h]
  rfl

/-- Witness for C7 on the empty collection. -/
theorem C7_export_empty_witness :
    (sortedList SortKey.newest (filteredList "" "all" []) = []) ∧
    exportCsv (sortedList SortKey.newest (filteredList "" "all" []))
        "2026-10-11" =
      ExportResult.noRows "No rows to export" :=
  ⟨by decide, C7_export_empty "" "all" SortKey.newest [] "2026-10-11"
    (by decide)⟩

/-! ### Dashboard joint load (Dashboard.jsx lines 59–78) -/

/-- Dashboard comparator `new Date(b.created_at) - new Date(a.created_at)`
(no `|| 0` here): with a missing timestamp the difference is `NaN`, which the
ECMA-262 sort treats as `+0`, so such pairs compare equal. -/
def dashCmp (a b : DiagnosisRecord) : ℤ :=
  match b.created_at, a.created_at with
  | some x, some y => x - y
  | _, _ => 0

/-- The dashboard sort relation `dashCmp a b ≤ 0`. -/
def dashLe (a b : DiagnosisRecord) : Prop := dashCmp a b ≤ 0

instance : DecidableRel dashLe := fun a b =>
  inferInstanceAs (Decidable (dashCmp a b ≤ 0))

/-- Dashboard `dRes.data.sort(...)` (newest first). -/
def dashSort (l : List DiagnosisRecord) : List DiagnosisRecord :=
  List.insertionSort dashLe l

/-- `Promise.all` of two settled requests: ok only when both are ok,
rejected as a unit when either rejects. -/
def promiseAll {α β : Type} (ra : Except Unit α) (rb : Except Unit β) :
    Except Unit (α × β) :=
  match ra, rb with
  | Except.ok a, Except.ok b => Except.ok (a, b)
  | Except.error e, _ => Except.error e
  | _, Except.error e => Except.error e

/-- The pair of collections committed by the dashboard load effect: array
payloads (diagnoses sorted newest-first) when both fetches succeed, both
empty when either rejects. -/
def dashboardLoadResult (rc : Except Unit (RespVal CattleObj))
    (rd : Except Unit (RespVal DiagnosisRecord)) :
    List CattleObj × List DiagnosisRecord :=
  match promiseAll rc rd with
  | Except.ok (c, d) => (arrOrEmpty c, dashSort (arrOrEmpty d))
  | Except.error _ => ([], [])

/-- C8: a failed history load falls back to the empty collection (the catch
absorbs the failure into an empty-state render — both load functions are
total, no error escapes), and when the dashboard awaits its two fetches
jointly, a rejection of either one resets both collections to empty with no
partial-success merging. -/
theorem C8_load_failure (e : Unit) (rc : Except Unit (RespVal CattleObj))
    (rd : Except Unit (RespVal DiagnosisRecord))
    (h : rc = Except.error () ∨ rd = Except.error ()) :
    historyLoadResult (Except.error e) = [] ∧
    dashboardLoadResult rc rd = ([], []) := by
  refine ⟨rfl, ?_⟩
  rcases h with he | he
  · subst he
    cases rd <;> rfl
  · subst he
    cases rc <;> rfl

/-- Witness for C8 with the cattle fetch rejected and the diagnosis fetch
succeeding. -/
theorem C8_load_failure_witness :
    ((Except.error () : Except Unit (RespVal CattleObj)) = Except.error () ∨
      (Except.ok (RespVal.arr ([] : List DiagnosisRecord)) :
        Except Unit (RespVal DiagnosisRecord)) = Except.error ()) ∧
    (historyLoadResult (Except.error ()) = [] ∧
      dashboardLoadResult (Except.error ())
        (Except.ok (RespVal.arr [])) = ([], [])) :=
  ⟨Or.inl rfl,
    C8_load_failure () (Except.error ()) (Except.ok (RespVal.arr []))
      (Or.inl rfl)⟩

/-! ### Post-resolution commits and the unmount guard -/

/-- State touched by the history load effect. -/
structure HState where
  list : List DiagnosisRecord
  loading : Bool
deriving DecidableEq

/-- State mutation the history load effect performs once its request
settles: the `mounted` flag is checked on the success path
(`if (!mounted) return`), on the failure path (`if (mounted) setList([])`)
and in `finally` (`if (mounted) setLoading(false)`). -/
def historyCommit (mounted : Bool) (r : Except Unit (RespVal DiagnosisRecord))
    (s : HState) : HState :=
  let s₁ :=
    match r with
    | Except.ok v => if mounted then { s with list := arrOrEmpty v } else s
    | Except.error _ => if mounted then { s with list := [] } else s
  if mounted then { s₁ with loading := false } else s₁

/-- State touched by the dashboard load effect. -/
structure DState where
  cattle : List CattleObj
  diagnoses : List DiagnosisRecord
  loading : Bool
deriving DecidableEq

/-- State mutation the dashboard load effect performs once `Promise.all`
settles, transcribed faithfully: the success path checks `cancelled` before
committing (`if (cancelled) return`) and `finally` checks it before clearing
the loading flag, but the `catch` path calls `setCattle([])` and
`setDiagnoses([])` without checking `cancelled`. -/
def dashboardCommit (cancelled : Bool)
    (r : Except Unit (RespVal CattleObj × RespVal DiagnosisRecord))
    (s : DState) : DState :=
  let s₁ :=
    match r with
    | Except.ok (c, d) =>
        if cancelled then s
        else { s with cattle := arrOrEmpty c,
                      diagnoses := dashSort (arrOrEmpty d) }
    | Except.error _ => { s with cattle := [], diagnoses := [] }
  if !cancelled then { s₁ with loading := false } else s₁

/-- A dashboard state holding one cattle record at the moment of unmount. -/
def dStateEx : DState := ⟨[⟨"Bessie", "T1", 1⟩], [], false⟩

/-- C9: the history effect never mutates state after unmount (first
conjunct), but the dashboard effect does — when its joint request rejects
after unmount (`cancelled = true`), the `catch` path still resets both
collections, so the state is mutated after resolution, contradicting the
claim for the failure path. -/
theorem C9_unmount_guard :
    (∀ (r : Except Unit (RespVal DiagnosisRecord)) (s : HState),
        historyCommit false r s = s) ∧
    dashboardCommit true (Except.error ()) dStateEx ≠ dStateEx := by
  constructor
  · intro r s
    cases r <;> rfl
  · decide

/-- C10: when a load request resolves successfully but its payload is not an
array, the stored collection is the empty list, for the history load and for
both dashboard collections. -/
theorem C10_nonarray_guard (v : RespVal DiagnosisRecord)
    (c : RespVal CattleObj) (d : RespVal DiagnosisRecord)
    (c' : RespVal CattleObj) (d' : RespVal DiagnosisRecord)
    (hv : v.isArr = false) (hc : c.isArr = false) (hd : d.isArr = false) :
    historyLoadResult (Except.ok v) = [] ∧
    (dashboardLoadResult (Except.ok c) (Except.ok d')).1 = [] ∧
    (dashboardLoadResult (Except.ok c') (Except.ok d)).2 = [] := by
  refine ⟨?_, ?_, ?_⟩
  · cases v with
    | arr l => simp [RespVal.isArr] at hv
    | nonArray => rfl
  · cases c with
    | arr l => simp [RespVal.isArr] at hc
    | nonArray => rfl
  · cases d with
    | arr l => simp [RespVal.isArr] at hd
    | nonArray => rfl

/-- Witness for C10 at non-array payloads. -/
theorem C10_nonarray_guard_witness :
    ((RespVal.nonArray : RespVal DiagnosisRecord).isArr = false ∧
      (RespVal.nonArray : RespVal CattleObj).isArr = false ∧
      (RespVal.nonArray : RespVal DiagnosisRecord).isArr = false) ∧
    (historyLoadResult (Except.ok RespVal.nonArray) = [] ∧
      (dashboardLoadResult (Except.ok RespVal.nonArray)
        (Except.ok (RespVal.arr []))).1 = [] ∧
      (dashboardLoadResult (Except.ok (RespVal.arr []))
        (Except.ok RespVal.nonArray)).2 = []) :=
  ⟨⟨rfl, rfl, rfl⟩,
    C10_nonarray_guard RespVal.nonArray RespVal.nonArray RespVal.nonArray
      (RespVal.arr []) (RespVal.arr []) rfl rfl rfl⟩

end CattleDiagnosis
